import Mathlib

/-!
Shallow embedding of the fission buildermgr package watcher
(`pkg/buildermgr/pkgwatcher.go`): the build-orchestration controller that
classifies freshly observed packages, deduplicates concurrent build
attempts, polls for a ready environment builder pod, invokes the remote
build, reconciles dependent Function records, and drives the package
status state machine.

External effects (status writes, environment fetch, pod-informer listing,
remote build, function listing/updates) are modelled by an oracle record
supplying their outcomes, and each orchestration run is embedded as a pure
function from the oracle to the list of externally visible events it
performs, in order.
-/

namespace Fission

/-- `fv1.BuildStatus` (a Go string constant): the build lifecycle states.
`bsnone` is the explicit status string "none", distinct from an unset
(empty-string) status, which is modelled as `Option.none` below. -/
inductive BuildStatus where
  | bsnone
  | pending
  | running
  | succeeded
  | failed
deriving DecidableEq, Repr

/-- `metav1.ObjectMeta`, restricted to the fields the watcher reads:
namespace, name and the store-assigned resource version token. -/
structure ObjectMeta where
  nspace : String
  name : String
  resourceVersion : String
deriving DecidableEq, Repr

/-- One entry of `pod.Status.ContainerStatuses`: only the `Ready` flag is
consulted by the watcher. -/
structure ContainerStatus where
  ready : Bool
deriving DecidableEq, Repr

/-- A builder pod as seen through the informer store: the three labels the
watcher consults (`LABEL_ENV_NAME`, `LABEL_ENV_NAMESPACE`,
`LABEL_ENV_RESOURCEVERSION`, with the Go map returning "" when absent) and
its container statuses. -/
structure Pod where
  labelEnvName : String
  labelEnvNamespace : String
  labelEnvResourceVersion : String
  containerStatuses : List ContainerStatus
deriving DecidableEq, Repr

/-- An Environment resource: the watcher only reads its object metadata. -/
structure Environment where
  metadata : ObjectMeta
deriving DecidableEq, Repr

/-- `pkg.Spec`, restricted to what the watcher reads: the environment
reference and emptiness of the two archives (`Archive.IsEmpty`). -/
structure PackageSpec where
  envNamespace : String
  envName : String
  sourceIsEmpty : Bool
  deploymentIsEmpty : Bool
deriving DecidableEq, Repr

/-- `pkg.Status`, restricted to the build status and the build log.  The
Go status is a string; the unset (empty-string) status is `Option.none`.
The last-update timestamp is not modelled (no claim observes it). -/
structure PackageStatus where
  buildStatus : Option BuildStatus
  buildLog : String
deriving DecidableEq, Repr

/-- A Package resource. -/
structure Package where
  metadata : ObjectMeta
  spec : PackageSpec
  status : PackageStatus
deriving DecidableEq, Repr

/-- `fn.Spec.Package.PackageRef`: a Function's reference to a Package. -/
structure PackageRef where
  name : String
  nspace : String
  resourceVersion : String
deriving DecidableEq, Repr

/-- A Function resource, restricted to its metadata and package reference. -/
structure Function where
  metadata : ObjectMeta
  packageRef : PackageRef
deriving DecidableEq, Repr

/-- `buildCacheKey`: `fmt.Sprintf("%s-%s-%s", obj.Namespace, obj.Name,
obj.ResourceVersion)`. -/
def buildCacheKey (m : ObjectMeta) : String :=
  m.nspace ++ "-" ++ m.name ++ "-" ++ m.resourceVersion

/-- Modelled from the spec: the dedup guard (`pkg/cache`, not under src/)
is an in-memory map whose `Set` admits a key iff it is not already
present; `admit(key, snapshot) -> ok | already-present`.  The state is the
list of admitted keys; the returned Bool is `true` iff the key was
admitted (Go: `Set` returned no error). -/
def cacheSet (c : List String) (key : String) : Bool × List String :=
  if key ∈ c then (false, c) else (true, key :: c)

/-- Modelled from the spec: the dedup guard's `Delete`; absence of the key
is not an error. -/
def cacheDelete (c : List String) (key : String) : List String :=
  c.filter (fun k => k ≠ key)

/-- `buildWithCache` admission step: attempt `buildCache.Set` on the
package's key; on duplicate, log and return without building; otherwise
spawn `build`.  Returns the new cache state and whether a build run was
spawned. -/
def buildWithCache (c : List String) (pkg : Package) : List String × Bool :=
  let r := cacheSet c (buildCacheKey pkg.metadata)
  (r.2, r.1)

/-- Delivering the same change notification `n` times against the dedup
guard (admissions are serialized by the internally synchronized cache);
returns the final cache state and how many build runs were spawned. -/
def deliverN (pkg : Package) : Nat → List String → List String × Nat
  | 0, c => (c, 0)
  | n + 1, c =>
    let r := buildWithCache c pkg
    let rest := deliverN pkg n r.1
    (rest.1, rest.2 + (if r.2 then 1 else 0))

/-- `setInitialBuildStatus`: resets the status record, then classifies the
package by archive emptiness.  The subsequent conditional store update is
modelled by the dispatcher; this is the computed package. -/
def setInitialBuildStatus (pkg : Package) : Package :=
  if !pkg.spec.deploymentIsEmpty then
    { pkg with status := { buildStatus := some BuildStatus.bsnone, buildLog := "" } }
  else if !pkg.spec.sourceIsEmpty then
    { pkg with status := { buildStatus := some BuildStatus.pending, buildLog := "" } }
  else
    { pkg with status := { buildStatus := some BuildStatus.failed,
                           buildLog := "Both deploy and source archive are empty" } }

/-- The single action the dispatcher takes for one change notification. -/
inductive DispatchAction where
  | initialStatus
  | startBuild
  | noop
deriving DecidableEq, Repr

/-- A package change notification: `AddFunc` carries the new object,
`UpdateFunc` carries old and new. -/
inductive WatchEvent where
  | added (pkg : Package)
  | updated (oldPkg : Package) (newPkg : Package)
deriving DecidableEq, Repr

/-- `processPkg` inside `packageInformerHandler`: empty status invokes the
initial-status resolver and returns; `Pending` status starts the
dedup-guarded build; anything else does nothing. -/
def processPkg (pkg : Package) : DispatchAction :=
  if pkg.status.buildStatus = Option.none then DispatchAction.initialStatus
  else if pkg.status.buildStatus = some BuildStatus.pending then DispatchAction.startBuild
  else DispatchAction.noop

/-- `packageInformerHandler`: `AddFunc` runs `processPkg`; `UpdateFunc`
first short-circuits when the resource version is unchanged and the new
status is not `Pending`, otherwise runs `processPkg` on the new object. -/
def packageInformerHandler : WatchEvent → DispatchAction
  | WatchEvent.added pkg => processPkg pkg
  | WatchEvent.updated oldPkg pkg =>
    if oldPkg.metadata.resourceVersion == pkg.metadata.resourceVersion &&
        pkg.status.buildStatus != some BuildStatus.pending then
      DispatchAction.noop
    else
      processPkg pkg

/-- The externally visible events an orchestration run (`build`) performs,
in order: attempted conditional status writes (with the store's
accept/reject outcome), the environment fetch, each pod-informer listing,
the remote build call (`buildPackage`), the function listing, each
attempted function update, and the deferred dedup-cache release. -/
inductive BuildEvent where
  | statusUpdate (st : BuildStatus) (log : String) (ok : Bool)
  | envGet
  | podListQuery
  | remoteBuild
  | functionListQuery
  | functionUpdate (fnName : String) (newVersion : String) (ok : Bool)
  | cacheRelease (key : String)
deriving DecidableEq, Repr

/-- Outcome of `Environments(...).Get`: the returned object (the generated
clientset returns a non-nil zero value even on error) together with the
error class.  `err != nil` in the Go code corresponds to
`notFound || otherErr`; `k8serrors.IsNotFound(err)` to `notFound`. -/
structure EnvGetResult where
  env : Environment
  notFound : Bool
  otherErr : Bool
deriving Repr

/-- Outcome of the remote `buildPackage` call: success flag, upload
response (opaque) and the build log text (returned in both cases; the
failure branch writes exactly these logs). -/
structure RemoteBuildResult where
  ok : Bool
  uploadResp : String
  buildLogs : String
deriving Repr

/-- Oracle fixing the outcome of every external interaction of one
orchestration run.  `podLists i` is the informer-store content observed by
the i-th poll iteration; `maxAttempts` is the backoff attempt budget
(modelled from the spec: `utils.NewDefaultBackOff` is not under src/, the
spec bounds the poll loop by a maximum number of attempts);
`fnUpdateOk k` is the store's verdict on the k-th attempted function
update; `failedOk` is the verdict on `Failed` status writes (their result
is only logged, never branched on). -/
structure BuildOracle where
  runningOk : Bool
  versionAfterRunning : String
  envResult : EnvGetResult
  podLists : Nat → List Pod
  maxAttempts : Nat
  buildResult : RemoteBuildResult
  fnListOk : Bool
  fnListErr : String
  fnItems : List Function
  fnUpdateOk : Nat → Bool
  fnUpdateErr : String
  succeededOk : Bool
  failedOk : Bool

/-- Modelled from the spec: `nsResolver.GetBuilderNS` (pkg/utils, not
under src/) resolves the namespace holding an environment's builder pods;
the spec lists builder instances "for the environment's namespace". -/
def getBuilderNS (envNamespace : String) : String := envNamespace

/-- The label filter of the poll loop: a pod is considered only when its
three labels equal the environment name, the builder namespace and the
environment resource version (the Go code `continue`s otherwise). -/
def podMatches (pod : Pod) (env : Environment) (builderNs : String) : Bool :=
  pod.labelEnvName == env.metadata.name &&
  pod.labelEnvNamespace == builderNs &&
  pod.labelEnvResourceVersion == env.metadata.resourceVersion

/-- `podIsReady := true; for cStatus { podIsReady = podIsReady && cStatus.Ready }`. -/
def podIsReady (pod : Pod) : Bool :=
  pod.containerStatuses.all (fun c => c.ready)

/-- The inner pod loop of one poll iteration: skip non-matching pods; at
the first matching pod, select it when ready, otherwise `break` out of
the loop (abandoning the iteration — later pods are not examined). -/
def scanPods (env : Environment) (builderNs : String) : List Pod → Option Pod
  | [] => Option.none
  | p :: rest =>
    if !podMatches p env builderNs then scanPods env builderNs rest
    else if podIsReady p then some p
    else Option.none

/-- `fn.Spec.Package.PackageRef` matches the package by name and namespace
but carries a stale resource version. -/
def fnNeedsUpdate (pkg : Package) (fn : Function) : Bool :=
  fn.packageRef.name == pkg.metadata.name &&
  fn.packageRef.nspace == pkg.metadata.nspace &&
  fn.packageRef.resourceVersion != pkg.metadata.resourceVersion

/-- The in-place mutation `fn.Spec.Package.PackageRef.ResourceVersion =
pkg.ObjectMeta.ResourceVersion`. -/
def updRef (pkg : Package) (fn : Function) : Function :=
  { fn with packageRef := { fn.packageRef with resourceVersion := pkg.metadata.resourceVersion } }

/-- The dependent-reference reconciliation loop over the listed functions
(`k` counts update attempts so far, indexing into the oracle).  Returns
the events performed, whether the loop ran to completion (`false` means
an update failed and the run returned), and the store state of the listed
functions afterwards: updated functions carry the new version, the
failing one and every function after it are untouched. -/
def reconcile (o : BuildOracle) (pkg : Package) (buildLogs : String) :
    List Function → Nat → List BuildEvent × Bool × List Function
  | [], _ => ([], true, [])
  | fn :: rest, k =>
    if fnNeedsUpdate pkg fn then
      if o.fnUpdateOk k then
        let r := reconcile o pkg buildLogs rest (k + 1)
        (BuildEvent.functionUpdate fn.metadata.name pkg.metadata.resourceVersion true :: r.1,
         r.2.1, updRef pkg fn :: r.2.2)
      else
        ([BuildEvent.functionUpdate fn.metadata.name pkg.metadata.resourceVersion false,
          BuildEvent.statusUpdate BuildStatus.failed
            (buildLogs ++ "error updating function package resource version: " ++
              o.fnUpdateErr ++ "\n") o.failedOk],
         false, fn :: rest)
    else
      let r := reconcile o pkg buildLogs rest k
      (r.1, r.2.1, fn :: r.2.2)

/-- The final status transition: update to `Succeeded` with the
accumulated logs and upload response; if that write fails, fall back to a
`Failed` write with the same logs. -/
def finishUp (o : BuildOracle) (buildLogs : String) : List BuildEvent :=
  BuildEvent.statusUpdate BuildStatus.succeeded buildLogs o.succeededOk ::
    (if o.succeededOk then []
     else [BuildEvent.statusUpdate BuildStatus.failed buildLogs o.failedOk])

/-- Everything after a ready builder pod is selected: invoke the remote
build; on failure write `Failed` with the returned logs and return.  On
success, list functions; a listing error appends its text to the logs and
writes `Failed`, but the Go branch is missing a `return`, so the run
falls through and iterates over the empty listing the generated clientset
returned (a non-nil zero-value list) and proceeds to the `Succeeded`
write.  Otherwise reconcile the listed functions and, if reconciliation
completed, perform the final status transition. -/
def afterSelect (o : BuildOracle) (pkg : Package) : List BuildEvent :=
  if !o.buildResult.ok then
    [BuildEvent.remoteBuild,
     BuildEvent.statusUpdate BuildStatus.failed o.buildResult.buildLogs o.failedOk]
  else if !o.fnListOk then
    let logs := o.buildResult.buildLogs ++ "error getting function list: " ++
      o.fnListErr ++ "\n"
    let r := reconcile o pkg logs [] 0
    BuildEvent.remoteBuild :: BuildEvent.functionListQuery ::
      BuildEvent.statusUpdate BuildStatus.failed logs o.failedOk ::
      (r.1 ++ if r.2.1 then finishUp o logs else [])
  else
    let r := reconcile o pkg o.buildResult.buildLogs o.fnItems 0
    BuildEvent.remoteBuild :: BuildEvent.functionListQuery ::
      (r.1 ++ if r.2.1 then finishUp o o.buildResult.buildLogs else [])

/-- The builder readiness poll loop (`for healthCheckBackOff.NextExists()`),
with the attempt budget as fuel (spec-modelled backoff).  Each iteration
lists the informer store, then re-checks the *stale* `err` variable left
over from the environment fetch (the listing itself returns no error) and
silently returns when it is set; an empty listing or an unsuccessful scan
sleeps and retries; a selected pod proceeds to `afterSelect` and the run
returns.  An exhausted budget performs the timeout `Failed` write. -/
def pollLoop (o : BuildOracle) (pkg : Package) (env : Environment) (builderNs : String) :
    Nat → Nat → List BuildEvent
  | _, 0 =>
    [BuildEvent.statusUpdate BuildStatus.failed
      "Build timeout due to environment builder not ready" o.failedOk]
  | i, fuel + 1 =>
    BuildEvent.podListQuery ::
      (if o.envResult.otherErr then []
       else
        let items := o.podLists i
        if items.isEmpty then pollLoop o pkg env builderNs (i + 1) fuel
        else
          match scanPods env builderNs items with
          | some _ => afterSelect o pkg
          | Option.none => pollLoop o pkg env builderNs (i + 1) fuel)

/-- The body of `build` before the deferred cache release: conditionally
write `Running` with an empty log (aborting on rejection); fetch the
environment; on `IsNotFound` write `Failed` with
`environment does not exist: "<name>"` and return; otherwise enter the
poll loop with the builder namespace resolved from the fetched
environment's namespace.  On success the `Running` write rebinds `pkg` to
the stored object, whose version token the store reassigned. -/
def buildBody (o : BuildOracle) (srcpkg : Package) : List BuildEvent :=
  if !o.runningOk then [BuildEvent.statusUpdate BuildStatus.running "" false]
  else
    let pkg : Package :=
      { srcpkg with
        metadata := { srcpkg.metadata with resourceVersion := o.versionAfterRunning },
        status := { buildStatus := some BuildStatus.running, buildLog := "" } }
    BuildEvent.statusUpdate BuildStatus.running "" true :: BuildEvent.envGet ::
      (if o.envResult.notFound then
        [BuildEvent.statusUpdate BuildStatus.failed
          ("environment does not exist: \"" ++ pkg.spec.envName ++ "\"") o.failedOk]
      else
        pollLoop o pkg o.envResult.env
          (getBuilderNS o.envResult.env.metadata.nspace) 0 o.maxAttempts)

/-- One orchestration run (`build`): the body followed by the deferred
`buildCache.Delete` of the admission key, which Go's `defer` runs on
every exit path. -/
def build (o : BuildOracle) (srcpkg : Package) : List BuildEvent :=
  buildBody o srcpkg ++ [BuildEvent.cacheRelease (buildCacheKey srcpkg.metadata)]

/-- ASCII lower-casing of one character, for comparing log messages up to
letter case. -/
def lowerAscii (c : Char) : Char :=
  if 'A' ≤ c ∧ c ≤ 'Z' then Char.ofNat (c.toNat + 32) else c

/-- Case-insensitive (ASCII) equality of two strings: the semantic
equality the spec asks for on illustrative log messages. -/
def caseInsensitiveEq (s t : String) : Bool :=
  s.data.map lowerAscii == t.data.map lowerAscii

/-- Predicate picking out `Failed` status writes in a trace. -/
def isFailedWrite : BuildEvent → Bool
  | BuildEvent.statusUpdate BuildStatus.failed _ _ => true
  | _ => false

/-- Predicate picking out dedup-cache releases in a trace. -/
def isRelease : BuildEvent → Bool
  | BuildEvent.cacheRelease _ => true
  | _ => false

/-- A concrete environment used for witnesses and counterexamples. -/
def envA : Environment :=
  { metadata := { nspace := "ns", name := "e", resourceVersion := "5" } }

/-- A concrete source package (empty status, source-only archives). -/
def pkgA : Package :=
  { metadata := { nspace := "ns", name := "p", resourceVersion := "1" },
    spec := { envNamespace := "ns", envName := "e",
              sourceIsEmpty := false, deploymentIsEmpty := true },
    status := { buildStatus := Option.none, buildLog := "" } }

/-- A builder pod matching `envA` whose single container is not ready. -/
def podNotReady : Pod :=
  { labelEnvName := "e", labelEnvNamespace := "ns", labelEnvResourceVersion := "5",
    containerStatuses := [{ ready := false }] }

/-- A builder pod matching `envA` whose single container is ready. -/
def podReady : Pod :=
  { labelEnvName := "e", labelEnvNamespace := "ns", labelEnvResourceVersion := "5",
    containerStatuses := [{ ready := true }] }

/-- A happy-path oracle: every store write accepted, environment found,
a ready builder pod visible from the first poll iteration. -/
def oracleBase : BuildOracle :=
  { runningOk := true, versionAfterRunning := "2",
    envResult := { env := envA, notFound := false, otherErr := false },
    podLists := fun _ => [podReady], maxAttempts := 2,
    buildResult := { ok := true, uploadResp := "u", buildLogs := "log" },
    fnListOk := true, fnListErr := "listerr", fnItems := [],
    fnUpdateOk := fun _ => true, fnUpdateErr := "upderr",
    succeededOk := true, failedOk := true }

/-- Claim C2: the initial-status resolver assigns exactly one status —
`None` when the deployment archive is non-empty, else `Pending` when the
source archive is non-empty, else `Failed` with a log semantically equal
(up to letter case) to "both deploy and source archive are empty". -/
theorem c2_initial_status (pkg : Package) :
    (pkg.spec.deploymentIsEmpty = false →
      (setInitialBuildStatus pkg).status.buildStatus = some BuildStatus.bsnone)
    ∧ (pkg.spec.deploymentIsEmpty = true → pkg.spec.sourceIsEmpty = false →
      (setInitialBuildStatus pkg).status.buildStatus = some BuildStatus.pending)
    ∧ (pkg.spec.deploymentIsEmpty = true → pkg.spec.sourceIsEmpty = true →
      (setInitialBuildStatus pkg).status.buildStatus = some BuildStatus.failed ∧
      caseInsensitiveEq (setInitialBuildStatus pkg).status.buildLog
        "both deploy and source archive are empty" = true) := by
  refine ⟨?_, ?_, ?_⟩
  · intro h; simp [setInitialBuildStatus, h]
  · intro h hs; simp [setInitialBuildStatus, h, hs]
  · intro h hs
    refine ⟨by simp [setInitialBuildStatus, h, hs], ?_⟩
    have hlog : (setInitialBuildStatus pkg).status.buildLog =
        "Both deploy and source archive are empty" := by
      simp [setInitialBuildStatus, h, hs]
    rw [hlog]
    decide

/-- Witness for C2 at a concrete both-archives-empty package. -/
theorem c2_initial_status_witness :
    (setInitialBuildStatus
        { pkgA with spec := { pkgA.spec with sourceIsEmpty := true } }).status.buildStatus =
      some BuildStatus.failed ∧
    caseInsensitiveEq
      (setInitialBuildStatus
        { pkgA with spec := { pkgA.spec with sourceIsEmpty := true } }).status.buildLog
      "both deploy and source archive are empty" = true :=
  (c2_initial_status _).2.2 rfl rfl

/-- Claim C7: when the initial conditional `Running` write is rejected,
the run performs only that write attempt and the deferred cache release —
no environment fetch, no pod listing, no remote build, no further status
write of any kind. -/
theorem c7_running_write_failure_aborts (o : BuildOracle) (pkg : Package)
    (h : o.runningOk = false) :
    build o pkg = [BuildEvent.statusUpdate BuildStatus.running "" false,
                   BuildEvent.cacheRelease (buildCacheKey pkg.metadata)] := by
  simp [build, buildBody, h]

/-- Witness for C7 at a concrete oracle whose `Running` write fails. -/
theorem c7_running_write_failure_aborts_witness :
    build { oracleBase with runningOk := false } pkgA =
      [BuildEvent.statusUpdate BuildStatus.running "" false,
       BuildEvent.cacheRelease (buildCacheKey pkgA.metadata)] :=
  c7_running_write_failure_aborts { oracleBase with runningOk := false } pkgA rfl

/-- Counterexample to claim C8: an `Updated` notification whose version is
unchanged and whose new status is empty is dispatched as a no-op — the
initial-status resolver is not invoked, contradicting the clause that an
event whose new status is empty invokes the resolver. -/
theorem c8_counterexample :
    pkgA.status.buildStatus = Option.none ∧
    packageInformerHandler (WatchEvent.updated pkgA pkgA) = DispatchAction.noop ∧
    DispatchAction.noop ≠ DispatchAction.initialStatus := by
  decide

/-- Claim C8 as amended: an `Added` event, or an `Updated` event whose
version changed, with empty new status invokes only the initial-status
resolver and never starts a build; an `Updated` event with unchanged
version and empty status is a no-op (empty is not `Pending`); an
`Updated` event whose new status is `Pending` always starts the
dedup-guarded build, regardless of version change; an `Updated` event
with unchanged version and status not `Pending` is a no-op. -/
theorem c8_dispatcher_amended (oldPkg newPkg : Package) :
    (newPkg.status.buildStatus = Option.none →
      packageInformerHandler (WatchEvent.added newPkg) = DispatchAction.initialStatus)
    ∧ (newPkg.status.buildStatus = Option.none →
      oldPkg.metadata.resourceVersion ≠ newPkg.metadata.resourceVersion →
      packageInformerHandler (WatchEvent.updated oldPkg newPkg) = DispatchAction.initialStatus)
    ∧ (newPkg.status.buildStatus = Option.none →
      oldPkg.metadata.resourceVersion = newPkg.metadata.resourceVersion →
      packageInformerHandler (WatchEvent.updated oldPkg newPkg) = DispatchAction.noop)
    ∧ (newPkg.status.buildStatus = some BuildStatus.pending →
      packageInformerHandler (WatchEvent.updated oldPkg newPkg) = DispatchAction.startBuild)
    ∧ (oldPkg.metadata.resourceVersion = newPkg.metadata.resourceVersion →
      newPkg.status.buildStatus ≠ some BuildStatus.pending →
      packageInformerHandler (WatchEvent.updated oldPkg newPkg) = DispatchAction.noop) := by
  refine ⟨?_, ?_, ?_, ?_, ?_⟩
  · intro h; simp [packageInformerHandler, processPkg, h]
  · intro h hv; simp [packageInformerHandler, processPkg, h, hv]
  · intro h hv; simp [packageInformerHandler, processPkg, h, hv]
  · intro h; simp [packageInformerHandler, processPkg, h]
  · intro hv hs; simp [packageInformerHandler, processPkg, hv, hs]

/-- Witness for the amended C8: a concrete `Pending` update dispatches to
the build orchestration. -/
theorem c8_dispatcher_amended_witness :
    packageInformerHandler
      (WatchEvent.updated pkgA
        { pkgA with status := { buildStatus := some BuildStatus.pending, buildLog := "" } }) =
      DispatchAction.startBuild :=
  (c8_dispatcher_amended pkgA
    { pkgA with status := { buildStatus := some BuildStatus.pending, buildLog := "" } }).2.2.2.1 rfl

/-- An oracle whose pod store holds a non-ready matching pod ahead of a
ready matching pod. -/
def oracleStaggered : BuildOracle :=
  { oracleBase with podLists := fun _ => [podNotReady, podReady], maxAttempts := 3 }

/-- Counterexample to claim C5: with a matching-but-not-ready pod listed
before a matching fully-ready pod, the scan abandons the attempt at the
first match (`break`), so the ready pod is never selected and the whole
run times out without any remote build call — matching instances after a
non-ready match are not eligible in the same attempt. -/
theorem c5_counterexample :
    podMatches podReady envA (getBuilderNS envA.metadata.nspace) = true ∧
    podIsReady podReady = true ∧
    scanPods envA (getBuilderNS envA.metadata.nspace) [podNotReady, podReady] = Option.none ∧
    BuildEvent.remoteBuild ∉ build oracleStaggered pkgA := by
  decide

/-- Claim C5 as amended: in each poll iteration a builder instance is
considered only if its labels equal the environment name, builder
namespace, and environment version exactly, and only the first matching
instance is examined: it is selected iff all its sub-units report ready;
a non-ready first match abandons the iteration, so matching instances
after a non-ready match are not eligible in the same attempt. -/
theorem c5_scan_first_match_amended (env : Environment) (bns : String) (items : List Pod) :
    scanPods env bns items =
      (match items.find? (fun p => podMatches p env bns) with
       | some p => if podIsReady p then some p else Option.none
       | Option.none => Option.none) := by
  induction items with
  | nil => rfl
  | cons p rest ih =>
    by_cases hm : podMatches p env bns = true
    · simp [scanPods, hm, List.find?_cons]
    · have hm2 : podMatches p env bns = false := by
        cases h : podMatches p env bns
        · rfl
        · exact absurd h hm
      simp [scanPods, hm2, List.find?_cons, ih]

/-- Claim C9: a non-not-found environment fetch error is not caught by the
`IsNotFound` check — the run proceeds past it into the poll loop (the
builder namespace is resolved from the fetch result as if it had
succeeded, and one pod listing is performed), then the stale error check
inside the loop silently ends the run: no `Failed` write, no second
fetch.  Only a not-found fetch reaches the `Failed` terminal branch. -/
theorem c9_env_error_not_failed (o : BuildOracle) (pkg : Package)
    (hrun : o.runningOk = true) (hnf : o.envResult.notFound = false)
    (hoe : o.envResult.otherErr = true) (hfuel : 1 ≤ o.maxAttempts) :
    build o pkg = [BuildEvent.statusUpdate BuildStatus.running "" true,
      BuildEvent.envGet, BuildEvent.podListQuery,
      BuildEvent.cacheRelease (buildCacheKey pkg.metadata)]
    ∧ (∀ o2 : BuildOracle, o2.runningOk = true → o2.envResult.notFound = true →
        build o2 pkg = [BuildEvent.statusUpdate BuildStatus.running "" true,
          BuildEvent.envGet,
          BuildEvent.statusUpdate BuildStatus.failed
            ("environment does not exist: \"" ++ pkg.spec.envName ++ "\"") o2.failedOk,
          BuildEvent.cacheRelease (buildCacheKey pkg.metadata)]) := by
  constructor
  · obtain ⟨f, hf⟩ : ∃ f, o.maxAttempts = f + 1 :=
      ⟨o.maxAttempts - 1, by omega⟩
    simp [build, buildBody, hrun, hnf, hf, pollLoop, hoe]
  · intro o2 hrun2 hnf2
    simp [build, buildBody, hrun2, hnf2]

/-- Witness for C9 at a concrete oracle with a transient fetch error. -/
theorem c9_env_error_not_failed_witness :
    build { oracleBase with envResult := { env := envA, notFound := false, otherErr := true } }
        pkgA =
      [BuildEvent.statusUpdate BuildStatus.running "" true,
       BuildEvent.envGet, BuildEvent.podListQuery,
       BuildEvent.cacheRelease (buildCacheKey pkgA.metadata)] :=
  (c9_env_error_not_failed
    { oracleBase with envResult := { env := envA, notFound := false, otherErr := true } }
    pkgA rfl rfl rfl (by decide)).1

/-- Every branch of the post-selection phase begins with the remote build
call. -/
theorem remoteBuild_mem_afterSelect (o : BuildOracle) (pkg : Package) :
    BuildEvent.remoteBuild ∈ afterSelect o pkg := by
  by_cases hb : o.buildResult.ok
  · by_cases hl : o.fnListOk
    · simp [afterSelect, hb, hl]
    · simp [afterSelect, hb, hl]
  · simp [afterSelect, hb]

/-- Claim C10: a matching builder pod with an empty container-status list
passes the readiness check vacuously — it is treated as fully ready,
selected by the scan, and the run proceeds to the remote build call. -/
theorem c10_empty_container_statuses_selected (o : BuildOracle) (pkg : Package) (pod : Pod)
    (hrun : o.runningOk = true) (hnf : o.envResult.notFound = false)
    (hoe : o.envResult.otherErr = false)
    (hmatch : podMatches pod o.envResult.env (getBuilderNS o.envResult.env.metadata.nspace) = true)
    (hempty : pod.containerStatuses = [])
    (hpods : o.podLists 0 = [pod])
    (hfuel : 1 ≤ o.maxAttempts) :
    podIsReady pod = true ∧
    scanPods o.envResult.env (getBuilderNS o.envResult.env.metadata.nspace) [pod] = some pod ∧
    BuildEvent.remoteBuild ∈ build o pkg := by
  have hready : podIsReady pod = true := by simp [podIsReady, hempty]
  have hscan : scanPods o.envResult.env (getBuilderNS o.envResult.env.metadata.nspace) [pod] =
      some pod := by
    simp [scanPods, hmatch, hready]
  refine ⟨hready, hscan, ?_⟩
  obtain ⟨f, hf⟩ : ∃ f, o.maxAttempts = f + 1 := ⟨o.maxAttempts - 1, by omega⟩
  have hmem := remoteBuild_mem_afterSelect o
    { pkg with
      metadata := { pkg.metadata with resourceVersion := o.versionAfterRunning },
      status := { buildStatus := some BuildStatus.running, buildLog := "" } }
  simp [build, buildBody, hrun, hnf, hf, pollLoop, hoe, hpods, hscan, hmem]

/-- Witness for C10: the happy-path oracle with a matching pod carrying no
container statuses reaches the remote build. -/
theorem c10_empty_container_statuses_selected_witness :
    BuildEvent.remoteBuild ∈
      build { oracleBase with
                podLists := fun _ =>
                  [{ labelEnvName := "e", labelEnvNamespace := "ns",
                     labelEnvResourceVersion := "5", containerStatuses := [] }] } pkgA :=
  (c10_empty_container_statuses_selected _ pkgA
    { labelEnvName := "e", labelEnvNamespace := "ns",
      labelEnvResourceVersion := "5", containerStatuses := [] }
    rfl rfl rfl (by decide) rfl rfl (by decide)).2.2

/-- Predicate picking out the remote build call in a trace. -/
def isRemote : BuildEvent → Bool
  | BuildEvent.remoteBuild => true
  | _ => false

theorem isRemote_eq_true (e : BuildEvent) :
    isRemote e = true ↔ e = BuildEvent.remoteBuild := by
  cases e <;> simp [isRemote]

theorem isRelease_eq_true (e : BuildEvent) :
    isRelease e = true ↔ ∃ k, e = BuildEvent.cacheRelease k := by
  cases e <;> simp [isRelease]

/-- When no listed pod is both matching and ready, the scan of one poll
iteration selects nothing. -/
theorem scanPods_eq_none (env : Environment) (bns : String) (items : List Pod)
    (h : ∀ p ∈ items, podMatches p env bns = true → podIsReady p = false) :
    scanPods env bns items = Option.none := by
  induction items with
  | nil => rfl
  | cons p rest ih =>
    cases hm : podMatches p env bns with
    | true => simp [scanPods, hm, h p (List.mem_cons_self p rest) hm]
    | false =>
      simpa [scanPods, hm] using
        ih (fun q hq hq2 => h q (List.mem_cons_of_mem p hq) hq2)

/-- Closed form of the poll loop when no matching pod is ever ready and
the stale environment error is unset: one pod listing per budgeted
attempt, then the single timeout `Failed` write. -/
theorem pollLoop_timeout (o : BuildOracle) (pkg : Package) (env : Environment) (bns : String)
    (hoe : o.envResult.otherErr = false)
    (h : ∀ i, ∀ p ∈ o.podLists i, podMatches p env bns = true → podIsReady p = false) :
    ∀ fuel i, pollLoop o pkg env bns i fuel =
      List.replicate fuel BuildEvent.podListQuery ++
        [BuildEvent.statusUpdate BuildStatus.failed
          "Build timeout due to environment builder not ready" o.failedOk] := by
  intro fuel
  induction fuel with
  | zero => intro i; simp [pollLoop]
  | succ f ih =>
    intro i
    have hscan := scanPods_eq_none env bns (o.podLists i) (h i)
    by_cases he : (o.podLists i).isEmpty
    · simp [pollLoop, hoe, he, ih, List.replicate_succ]
    · simp [pollLoop, hoe, he, hscan, ih, List.replicate_succ]

/-- Claim C3: when no matching builder instance is ever ready, the run
exhausts the attempt budget and performs exactly one `Failed` status
write, carrying the timeout log, and the remote build is never invoked. -/
theorem c3_timeout_no_builder (o : BuildOracle) (pkg : Package)
    (hrun : o.runningOk = true) (hnf : o.envResult.notFound = false)
    (hoe : o.envResult.otherErr = false)
    (h : ∀ i, ∀ p ∈ o.podLists i,
      podMatches p o.envResult.env (getBuilderNS o.envResult.env.metadata.nspace) = true →
      podIsReady p = false) :
    (build o pkg).countP isFailedWrite = 1 ∧
    BuildEvent.statusUpdate BuildStatus.failed
      "Build timeout due to environment builder not ready" o.failedOk ∈ build o pkg ∧
    BuildEvent.remoteBuild ∉ build o pkg := by
  have hclosed : build o pkg =
      [BuildEvent.statusUpdate BuildStatus.running "" true, BuildEvent.envGet] ++
      (List.replicate o.maxAttempts BuildEvent.podListQuery ++
        [BuildEvent.statusUpdate BuildStatus.failed
          "Build timeout due to environment builder not ready" o.failedOk]) ++
      [BuildEvent.cacheRelease (buildCacheKey pkg.metadata)] := by
    simp [build, buildBody, hrun, hnf,
      pollLoop_timeout o _ o.envResult.env (getBuilderNS o.envResult.env.metadata.nspace) hoe h]
  rw [hclosed]
  refine ⟨?_, ?_, ?_⟩
  · have hz : (List.replicate o.maxAttempts BuildEvent.podListQuery).countP isFailedWrite = 0 := by
      rw [List.countP_eq_zero]
      intro a ha
      rw [List.mem_replicate] at ha
      simp [ha.2, isFailedWrite]
    simp [List.countP_append, List.countP_cons, hz, isFailedWrite]
  · simp
  · intro hmem
    simp [List.mem_append, List.mem_replicate] at hmem

/-- Witness for C3: a concrete run whose pod store only ever offers a
non-ready matching pod exhausts its two attempts with a single timeout
`Failed` write and no remote build call. -/
theorem c3_timeout_no_builder_witness :
    ((build { oracleBase with podLists := fun _ => [podNotReady] } pkgA).countP
        isFailedWrite = 1) ∧
    BuildEvent.statusUpdate BuildStatus.failed
      "Build timeout due to environment builder not ready" true ∈
        build { oracleBase with podLists := fun _ => [podNotReady] } pkgA ∧
    BuildEvent.remoteBuild ∉ build { oracleBase with podLists := fun _ => [podNotReady] } pkgA :=
  c3_timeout_no_builder { oracleBase with podLists := fun _ => [podNotReady] } pkgA
    rfl rfl rfl (by intro i p hp hm; simp at hp; subst hp; decide)

/-- A run already holding the key spawns nothing on re-delivery: the dedup
guard rejects every admission while the key is present. -/
theorem deliverN_of_mem (pkg : Package) (n : Nat) (c : List String)
    (h : buildCacheKey pkg.metadata ∈ c) : deliverN pkg n c = (c, 0) := by
  induction n with
  | zero => rfl
  | succ m ih => simp [deliverN, buildWithCache, cacheSet, h, ih]

theorem remote_not_mem_reconcile (o : BuildOracle) (pkg : Package) (logs : String) :
    ∀ (fns : List Function) (k : Nat), BuildEvent.remoteBuild ∉ (reconcile o pkg logs fns k).1 := by
  intro fns
  induction fns with
  | nil => intro k; simp [reconcile]
  | cons fn rest ih =>
    intro k
    by_cases hn : fnNeedsUpdate pkg fn = true
    · by_cases hk : o.fnUpdateOk k = true
      · simp [reconcile, hn, hk, ih (k + 1)]
      · simp [reconcile, hn, hk]
    · simp [reconcile, hn, ih k]

theorem remote_not_mem_finishUp (o : BuildOracle) (logs : String) :
    BuildEvent.remoteBuild ∉ finishUp o logs := by
  by_cases hs : o.succeededOk = true <;> simp [finishUp, hs]

/-- The post-selection phase performs the remote build exactly once. -/
theorem countP_remote_afterSelect (o : BuildOracle) (pkg : Package) :
    (afterSelect o pkg).countP isRemote = 1 := by
  have hrec : ∀ (logs : String) (fns : List Function) (k : Nat),
      (reconcile o pkg logs fns k).1.countP isRemote = 0 := by
    intro logs fns k
    rw [List.countP_eq_zero]
    intro a ha hra
    rw [isRemote_eq_true] at hra
    exact remote_not_mem_reconcile o pkg logs fns k (hra ▸ ha)
  have hfin : ∀ logs : String, (finishUp o logs).countP isRemote = 0 := by
    intro logs
    rw [List.countP_eq_zero]
    intro a ha hra
    rw [isRemote_eq_true] at hra
    exact remote_not_mem_finishUp o logs (hra ▸ ha)
  by_cases hb : o.buildResult.ok
  · by_cases hl : o.fnListOk
    · by_cases hcomp : (reconcile o pkg o.buildResult.buildLogs o.fnItems 0).2.1 = true
      · simp [afterSelect, hb, hl, hcomp, List.countP_append, List.countP_cons,
          hrec, hfin, isRemote]
      · simp [afterSelect, hb, hl, hcomp, List.countP_append, List.countP_cons,
          hrec, isRemote]
    · simp [afterSelect, hb, hl, reconcile, finishUp, List.countP_append, List.countP_cons,
        isRemote]
  · simp [afterSelect, hb, List.countP_cons, isRemote]

/-- The poll loop performs the remote build at most once. -/
theorem countP_remote_pollLoop (o : BuildOracle) (pkg : Package) (env : Environment)
    (bns : String) :
    ∀ (fuel i : Nat), (pollLoop o pkg env bns i fuel).countP isRemote ≤ 1 := by
  intro fuel
  induction fuel with
  | zero => intro i; simp [pollLoop, List.countP_cons, isRemote]
  | succ f ih =>
    intro i
    by_cases hoe : o.envResult.otherErr = true
    · simp [pollLoop, hoe, List.countP_cons, isRemote]
    · by_cases he : (o.podLists i).isEmpty
      · simpa [pollLoop, hoe, he, List.countP_cons, isRemote] using ih (i + 1)
      · cases hscan : scanPods env bns (o.podLists i) with
        | none => simpa [pollLoop, hoe, he, hscan, List.countP_cons, isRemote] using ih (i + 1)
        | some p =>
          simp [pollLoop, hoe, he, hscan, List.countP_cons, isRemote,
            countP_remote_afterSelect]

/-- A single orchestration run invokes the remote build at most once. -/
theorem countP_remote_build (o : BuildOracle) (pkg : Package) :
    (build o pkg).countP isRemote ≤ 1 := by
  by_cases hr : o.runningOk = true
  · by_cases hnf : o.envResult.notFound = true
    · simp [build, buildBody, hr, hnf, List.countP_append, List.countP_cons, isRemote]
    · simp [build, buildBody, hr, hnf, List.countP_append, List.countP_cons, isRemote]
      exact countP_remote_pollLoop o _ o.envResult.env
        (getBuilderNS o.envResult.env.metadata.nspace) o.maxAttempts 0
  · simp [build, buildBody, hr, List.countP_append, List.countP_cons, isRemote]

theorem release_not_mem_reconcile (o : BuildOracle) (pkg : Package) (logs : String)
    (key : String) :
    ∀ (fns : List Function) (k : Nat),
      BuildEvent.cacheRelease key ∉ (reconcile o pkg logs fns k).1 := by
  intro fns
  induction fns with
  | nil => intro k; simp [reconcile]
  | cons fn rest ih =>
    intro k
    by_cases hn : fnNeedsUpdate pkg fn = true
    · by_cases hk : o.fnUpdateOk k = true
      · simp [reconcile, hn, hk, ih (k + 1)]
      · simp [reconcile, hn, hk]
    · simp [reconcile, hn, ih k]

theorem release_not_mem_finishUp (o : BuildOracle) (logs key : String) :
    BuildEvent.cacheRelease key ∉ finishUp o logs := by
  by_cases hs : o.succeededOk = true <;> simp [finishUp, hs]

theorem release_not_mem_afterSelect (o : BuildOracle) (pkg : Package) (key : String) :
    BuildEvent.cacheRelease key ∉ afterSelect o pkg := by
  by_cases hb : o.buildResult.ok
  · by_cases hl : o.fnListOk
    · by_cases hcomp : (reconcile o pkg o.buildResult.buildLogs o.fnItems 0).2.1 = true
      · simp [afterSelect, hb, hl, hcomp, release_not_mem_reconcile,
          release_not_mem_finishUp]
      · simp [afterSelect, hb, hl, hcomp, release_not_mem_reconcile]
    · simp [afterSelect, hb, hl, reconcile, release_not_mem_finishUp]
  · simp [afterSelect, hb]

theorem release_not_mem_pollLoop (o : BuildOracle) (pkg : Package) (env : Environment)
    (bns key : String) :
    ∀ (fuel i : Nat), BuildEvent.cacheRelease key ∉ pollLoop o pkg env bns i fuel := by
  intro fuel
  induction fuel with
  | zero => intro i; simp [pollLoop]
  | succ f ih =>
    intro i
    by_cases hoe : o.envResult.otherErr = true
    · simp [pollLoop, hoe]
    · by_cases he : (o.podLists i).isEmpty
      · simpa [pollLoop, hoe, he] using ih (i + 1)
      · cases hscan : scanPods env bns (o.podLists i) with
        | none => simpa [pollLoop, hoe, he, hscan] using ih (i + 1)
        | some p => simp [pollLoop, hoe, he, hscan, release_not_mem_afterSelect]

/-- The body of a run never releases the dedup key itself; only the
deferred release at the end of `build` does. -/
theorem release_not_mem_buildBody (o : BuildOracle) (pkg : Package) (key : String) :
    BuildEvent.cacheRelease key ∉ buildBody o pkg := by
  by_cases hr : o.runningOk = true
  · by_cases hnf : o.envResult.notFound = true
    · simp [buildBody, hr, hnf]
    · simp [buildBody, hr, hnf, release_not_mem_pollLoop]
  · simp [buildBody, hr]

/-- Every orchestration run, whatever its exit path, releases the dedup
key exactly once, as its final action. -/
theorem build_releases_once (o : BuildOracle) (pkg : Package) :
    (build o pkg).countP isRelease = 1 ∧
    (build o pkg).getLast? = some (BuildEvent.cacheRelease (buildCacheKey pkg.metadata)) := by
  constructor
  · have hz : (buildBody o pkg).countP isRelease = 0 := by
      rw [List.countP_eq_zero]
      intro a ha hra
      rw [isRelease_eq_true] at hra
      obtain ⟨k, rfl⟩ := hra
      exact release_not_mem_buildBody o pkg k ha
    simp [build, List.countP_append, hz, isRelease]
  · exact List.getLast?_concat _

/-- Claim C1: delivering the same `Pending` notification for the same
dedup key `n ≥ 1` times while the key is absent admits exactly one
orchestration run; any single run calls the remote build at most once,
and exactly once on a run whose first poll iteration selects a ready
builder; every run, on every exit path, releases its key exactly once as
its last action, after which the key can be admitted again. -/
theorem c1_dedup_single_flight (c : List String) (pkg : Package) (n : Nat)
    (hn : 1 ≤ n) (hkey : buildCacheKey pkg.metadata ∉ c) :
    (deliverN pkg n c).2 = 1
    ∧ (∀ o : BuildOracle, (build o pkg).countP isRemote ≤ 1)
    ∧ (∀ o : BuildOracle, (build o pkg).countP isRelease = 1 ∧
        (build o pkg).getLast? = some (BuildEvent.cacheRelease (buildCacheKey pkg.metadata)))
    ∧ (∀ o : BuildOracle, o.runningOk = true → o.envResult.notFound = false →
        o.envResult.otherErr = false → 1 ≤ o.maxAttempts →
        (o.podLists 0).isEmpty = false →
        (∃ p, scanPods o.envResult.env (getBuilderNS o.envResult.env.metadata.nspace)
          (o.podLists 0) = some p) →
        (build o pkg).countP isRemote = 1)
    ∧ (cacheSet (cacheDelete (deliverN pkg n c).1 (buildCacheKey pkg.metadata))
        (buildCacheKey pkg.metadata)).1 = true := by
  obtain ⟨m, rfl⟩ : ∃ m, n = m + 1 := ⟨n - 1, by omega⟩
  have hdeliver : deliverN pkg (m + 1) c = (buildCacheKey pkg.metadata :: c, 1) := by
    have hstep : buildWithCache c pkg = (buildCacheKey pkg.metadata :: c, true) := by
      simp [buildWithCache, cacheSet, hkey]
    have hrest := deliverN_of_mem pkg m (buildCacheKey pkg.metadata :: c)
      (List.mem_cons_self _ _)
    simp [deliverN, hstep, hrest]
  refine ⟨by simp [hdeliver], fun o => countP_remote_build o pkg,
    fun o => build_releases_once o pkg, ?_, ?_⟩
  · intro o hr hnf hoe hfuel hne hscan
    obtain ⟨p, hp⟩ := hscan
    obtain ⟨f, hf⟩ : ∃ f, o.maxAttempts = f + 1 := ⟨o.maxAttempts - 1, by omega⟩
    simp [build, buildBody, hr, hnf, hf, pollLoop, hoe, hne, hp,
      List.countP_append, List.countP_cons, isRemote, countP_remote_afterSelect]
  · rw [hdeliver]
    simp [cacheSet, cacheDelete]

/-- Witness for C1: three concurrent deliveries of the same concrete
pending package admit exactly one run, the happy-path oracle's run calls
the remote build exactly once and ends by releasing its key, and the key
is re-admittable afterwards. -/
theorem c1_dedup_single_flight_witness :
    (deliverN pkgA 3 []).2 = 1 ∧
    (build oracleBase pkgA).countP isRemote = 1 ∧
    (build oracleBase pkgA).countP isRelease = 1 ∧
    (cacheSet (cacheDelete (deliverN pkgA 3 []).1 (buildCacheKey pkgA.metadata))
      (buildCacheKey pkgA.metadata)).1 = true := by
  have h := c1_dedup_single_flight [] pkgA 3 (by omega) (by simp)
  exact ⟨h.1,
    h.2.2.2.1 oracleBase rfl rfl rfl (by decide) (by decide) ⟨podReady, by decide⟩,
    (h.2.2.1 oracleBase).1, h.2.2.2.2⟩

/-- Splitting lemma for the reconciliation loop: with the listing split as
`pre ++ f :: post`, every needed update in `pre` accepted, `f` needing an
update that the store rejects, the loop updates exactly the needing
functions of `pre` in listing order, then aborts at `f` with a single
`Failed` write; `f` and everything after it keep their stale reference. -/
theorem reconcile_split (o : BuildOracle) (pkg : Package) (logs : String)
    (f : Function) (post : List Function) (hf : fnNeedsUpdate pkg f = true) :
    ∀ (pre : List Function) (k : Nat),
      (∀ j, j < pre.countP (fun g => fnNeedsUpdate pkg g) → o.fnUpdateOk (k + j) = true) →
      o.fnUpdateOk (k + pre.countP (fun g => fnNeedsUpdate pkg g)) = false →
      reconcile o pkg logs (pre ++ f :: post) k =
        ((pre.filter (fun g => fnNeedsUpdate pkg g)).map
            (fun g => BuildEvent.functionUpdate g.metadata.name pkg.metadata.resourceVersion true)
          ++ [BuildEvent.functionUpdate f.metadata.name pkg.metadata.resourceVersion false,
              BuildEvent.statusUpdate BuildStatus.failed
                (logs ++ "error updating function package resource version: " ++
                  o.fnUpdateErr ++ "\n") o.failedOk],
         false,
         pre.map (fun g => if fnNeedsUpdate pkg g then updRef pkg g else g) ++ f :: post) := by
  intro pre
  induction pre with
  | nil =>
    intro k hpre hfail
    simp only [List.countP_nil, Nat.add_zero] at hfail
    simp [reconcile, hf, hfail]
  | cons g pre ih =>
    intro k hpre hfail
    by_cases hg : fnNeedsUpdate pkg g = true
    · have hcount : (g :: pre).countP (fun x => fnNeedsUpdate pkg x) =
          pre.countP (fun x => fnNeedsUpdate pkg x) + 1 := by
        simp [List.countP_cons, hg]
      have hok : o.fnUpdateOk k = true := by
        have := hpre 0 (by rw [hcount]; omega)
        simpa using this
      have hrec := ih (k + 1)
        (fun j hj => by
          have := hpre (j + 1) (by rw [hcount]; omega)
          have harith : k + (j + 1) = k + 1 + j := by omega
          rwa [harith] at this)
        (by
          rw [hcount] at hfail
          have harith : k + (pre.countP (fun x => fnNeedsUpdate pkg x) + 1) =
              k + 1 + pre.countP (fun x => fnNeedsUpdate pkg x) := by omega
          rwa [harith] at hfail)
      simp [reconcile, hg, hok, hrec, List.filter_cons]
    · have hcount : (g :: pre).countP (fun x => fnNeedsUpdate pkg x) =
          pre.countP (fun x => fnNeedsUpdate pkg x) := by
        simp [List.countP_cons, hg]
      have hrec := ih k (fun j hj => hpre j (by rw [hcount]; omega))
        (by rw [hcount] at hfail; exact hfail)
      simp [reconcile, hg, hrec, List.filter_cons]

/-- Claim C6: each listed function matching the package by name and
namespace with a stale version is updated to the new version in listing
order; the first rejected update aborts the whole reconciliation with a
`Failed` write, functions updated before the failure keep the new
reference, the failing function and all later ones keep the stale one,
and the run performs no `Succeeded` write. -/
theorem c6_cascade_abort (o : BuildOracle) (pkg : Package)
    (pre post : List Function) (f : Function)
    (hf : fnNeedsUpdate pkg f = true)
    (hpre : ∀ j, j < pre.countP (fun g => fnNeedsUpdate pkg g) → o.fnUpdateOk j = true)
    (hfail : o.fnUpdateOk (pre.countP (fun g => fnNeedsUpdate pkg g)) = false)
    (hitems : o.fnItems = pre ++ f :: post)
    (hbuild : o.buildResult.ok = true) (hlist : o.fnListOk = true) :
    reconcile o pkg o.buildResult.buildLogs o.fnItems 0 =
      ((pre.filter (fun g => fnNeedsUpdate pkg g)).map
          (fun g => BuildEvent.functionUpdate g.metadata.name pkg.metadata.resourceVersion true)
        ++ [BuildEvent.functionUpdate f.metadata.name pkg.metadata.resourceVersion false,
            BuildEvent.statusUpdate BuildStatus.failed
              (o.buildResult.buildLogs ++
                "error updating function package resource version: " ++
                o.fnUpdateErr ++ "\n") o.failedOk],
       false,
       pre.map (fun g => if fnNeedsUpdate pkg g then updRef pkg g else g) ++ f :: post)
    ∧ (∀ (log2 : String) (ok2 : Bool),
        BuildEvent.statusUpdate BuildStatus.succeeded log2 ok2 ∉ afterSelect o pkg) := by
  have hsplit := reconcile_split o pkg o.buildResult.buildLogs f post hf pre 0
    (fun j hj => by simpa using hpre j hj)
    (by simpa using hfail)
  rw [hitems]
  refine ⟨hsplit, ?_⟩
  intro log2 ok2
  rw [afterSelect]
  simp only [hbuild, hlist, Bool.not_true, hitems, hsplit]
  simp

/-- Concrete stale function for the C6 witness (name `nm`, referencing
package `p` in namespace `ns` at stale version `V1`). -/
def fnStale (nm : String) : Function :=
  { metadata := { nspace := "ns", name := nm, resourceVersion := "9" },
    packageRef := { name := "p", nspace := "ns", resourceVersion := "V1" } }

/-- Oracle for the C6 witness: two stale functions listed, the first
update accepted, the second rejected. -/
def oracleCascade : BuildOracle :=
  { oracleBase with
      fnItems := [fnStale "f1", fnStale "f2"],
      fnUpdateOk := fun k => k == 0 }

/-- Witness for C6: with two stale functions and the second update
rejected, reconciliation aborts, the first function carries the new
version, the second keeps the stale one. -/
theorem c6_cascade_abort_witness :
    (reconcile oracleCascade pkgA oracleCascade.buildResult.buildLogs
        oracleCascade.fnItems 0).2.1 = false ∧
    (reconcile oracleCascade pkgA oracleCascade.buildResult.buildLogs
        oracleCascade.fnItems 0).2.2 = [updRef pkgA (fnStale "f1"), fnStale "f2"] := by
  have h := c6_cascade_abort oracleCascade pkgA [fnStale "f1"] [] (fnStale "f2")
    (by decide)
    (by
      intro j hj
      have hc : List.countP (fun g => fnNeedsUpdate pkgA g) [fnStale "f1"] = 1 := by decide
      rw [hc] at hj
      have hj0 : j = 0 := Nat.lt_one_iff.mp hj
      subst hj0
      decide)
    (by
      have hc : List.countP (fun g => fnNeedsUpdate pkgA g) [fnStale "f1"] = 1 := by decide
      rw [hc]
      decide)
    rfl rfl rfl
  refine ⟨?_, ?_⟩
  · rw [h.1]
  · rw [h.1]
    decide

/-- The oracle exhibiting the C4 failing input: the remote build succeeds
and the subsequent function listing fails. -/
def oracleListFail : BuildOracle := { oracleBase with fnListOk := false }

/-- Claim C4 (code bug): on a function-listing failure after a successful
remote build the source appends the error and writes `Failed`, but the
branch is missing a `return`, so the run continues — iterating the empty
listing the generated clientset returned — and performs the final
`Succeeded` write, contradicting both the spec and the `Failed` write
just made.  Evaluating the embedding at the failing input exhibits the
`Failed` write followed by the `Succeeded` write. -/
theorem c4_listing_failure_run_continues :
    oracleListFail.fnListOk = false ∧
    build oracleListFail pkgA =
      [BuildEvent.statusUpdate BuildStatus.running "" true,
       BuildEvent.envGet, BuildEvent.podListQuery, BuildEvent.remoteBuild,
       BuildEvent.functionListQuery,
       BuildEvent.statusUpdate BuildStatus.failed
         "logerror getting function list: listerr\n" true,
       BuildEvent.statusUpdate BuildStatus.succeeded
         "logerror getting function list: listerr\n" true,
       BuildEvent.cacheRelease "ns-p-1"] := by
  decide

end Fission
